import Mathlib

/-!
Shallow embedding of the redux-hooks binding layer (src/redux-hooks.tsx, the
file given as src/unnamed/part_003) for verification of the spec's claims.

Modelling conventions:
* JavaScript values handled by the hooks are untyped (`any`); we model the
  common value universe by a type parameter `α`.  The store state and mapped
  values live in the same `α`, matching the source where `getMappedValue`
  returns the raw state when no `mapState` function is given.
* The private `nil` sentinel (`const nil = {}`) is a unique object reference
  that no user value can be identical to; refs that may hold it are modelled
  as `Option α` with `none` standing for the sentinel.
* `shallowEqual` is imported from "./shallow-equal", whose source is not part
  of the provided tree; the hooks use it as a black box, so the model takes
  it as a parameter `sheq : α → α → Bool`.  Comparisons of a user value
  against the `nil` sentinel object itself are the parameter
  `sheqnil : α → Bool` (shallowEqual applied with the sentinel object on one
  side).  A concrete instance modelled from the spec is given further below
  for witnesses.
* Reference identity of deps arrays (JavaScript `==` between arrays, used by
  `useDidDepsChange`) is modelled by tagging each array with a numeric `id`;
  element-wise comparison (React's `Object.is` per element in `useMemo`) is
  decidable equality on the element list.
-/

namespace ReduxHooks

/-- A JS deps array: `id` models the array object's reference identity,
`elems` its contents, compared element-wise by `useMemo`. -/
structure Deps (α : Type) where
  id : Nat
  elems : List α
deriving DecidableEq, Repr

/-- A mapState function as used by `useMapState`: it receives the store state
and (for `useSelect`, whose mapState closure mutates a captured ref) the
closure's captured mutable state `σ`, returning the mapped value and the new
captured state.  Plain `useMapState` callers use `σ = Unit`. -/
def MapFn (α σ : Type) : Type := α → σ → α × σ

/-- Lift a pure mapState function (no captured mutable state). -/
def pureMap {α σ : Type} (f : α → α) : MapFn α σ := fun s c => (f s, c)

/-- The mutable refs of one `useMapState` hook instance (part_003 lines
236-258): `prev` is `prevRef`, `bailout` is `bailoutRef` (with `none` for the
`nil` sentinel), `memo` is the `useMemo` cell inside `useDidDepsChange`, and
`clos` is the captured mutable state of the mapState closure. -/
structure MapHook (α σ : Type) where
  prev : Option α
  bailout : Option α
  memo : Option (Deps α)
  clos : σ
deriving Repr

/-- A freshly mounted hook: both value refs hold the `nil` sentinel and the
deps memo cell is empty. -/
def freshHook {α σ : Type} (c : σ) : MapHook α σ := ⟨none, none, none, c⟩

/-- `getMappedValue` (part_003 lines 268-276): return the whole state when no
mapState function is set, else apply it.  The third component counts how many
times the user's mapState function was invoked. -/
def getMappedValue {α σ : Type} (st : α) (ms : Option (MapFn α σ)) (c : σ) :
    α × σ × Nat :=
  match ms with
  | none => (st, c, 0)
  | some f => ((f st c).1, (f st c).2, 1)

/-- `useDidDepsChange` (part_003 lines 217-226).  `memo` is the `useMemo`
cell: `useMemo(() => deps, deps)` returns the cached array when the new elems
are element-wise equal to the cached ones, otherwise the new array.  The hook
reports "changed" exactly when the returned array is reference-equal (same
`id`) to the current `deps` argument.  Returns the flag and the new memo
cell. -/
def useDidDepsChange {α : Type} [DecidableEq α]
    (memo : Option (Deps α)) (deps : Option (Deps α)) :
    Bool × Option (Deps α) :=
  match deps with
  | none => (false, memo)
  | some d =>
    let m := match memo with
      | some m0 => if m0.elems = d.elems then m0 else d
      | none => d
    (m.id == d.id, some m)

/-- Result of one render of `useMapState`: the returned value, the hook's new
ref state, and the number of invocations of the user's mapState function
performed during the render. -/
structure RenderOut (α σ : Type) where
  result : α
  hook : MapHook α σ
  calls : Nat
deriving Repr

/-- One render of `useMapState` (part_003 lines 228-327) at current store
state `st` with render arguments `ms` (mapState) and `deps`, starting from
ref state `h0`.  Follows the source line by line: deps-change detection,
first-render initialization of `prevRef`/`bailoutRef`, the deps bailout
(`deps && !depsChanged && bailoutRef === nil`), the bailout-consuming return,
and the fall-through `prevRef.current = getMappedValue()`. -/
def renderMapState {α σ : Type} [DecidableEq α] (st : α)
    (ms : Option (MapFn α σ)) (deps : Option (Deps α)) (h0 : MapHook α σ) :
    RenderOut α σ :=
  let dc := useDidDepsChange h0.memo deps
  let h1 : MapHook α σ := { h0 with memo := dc.2 }
  let init : MapHook α σ × Nat :=
    match h1.prev with
    | none =>
      let g := getMappedValue st ms h1.clos
      ({ h1 with prev := some g.1, bailout := some g.1, clos := g.2.1 }, g.2.2)
    | some _ => (h1, 0)
  let h2 := init.1
  let h3 : MapHook α σ :=
    if deps.isSome && !dc.1 && h2.bailout.isNone
    then { h2 with bailout := h2.prev }
    else h2
  match h3.bailout with
  | some v => ⟨v, { h3 with bailout := none }, init.2⟩
  | none =>
    let g := getMappedValue st ms h3.clos
    ⟨g.1, { h3 with prev := some g.1, clos := g.2.1 }, init.2 + g.2.2⟩

/-- Result of running one hook's `update` function (part_003 lines 285-293):
the new ref state, whether `triggerRender` was called, and the number of
mapState invocations. -/
structure UpdateOut (α σ : Type) where
  hook : MapHook α σ
  triggered : Bool
  calls : Nat
deriving Repr

/-- shallowEqual applied where the first argument is a ref value that may be
the `nil` sentinel object: `sheq` compares two user values, `sheqnil b`
models `shallowEqual(nil-object, b)`. -/
def shallowEqualNilable {α : Type} (sheq : α → α → Bool) (sheqnil : α → Bool)
    (a : Option α) (b : α) : Bool :=
  match a with
  | some x => sheq x b
  | none => sheqnil b

/-- shallowEqual applied where the second argument is a ref value that may be
the `nil` sentinel object. -/
def shallowEqualNilableSnd {α : Type} (sheq : α → α → Bool)
    (sheqnil : α → Bool) (a : α) (b : Option α) : Bool :=
  match b with
  | some x => sheq a x
  | none => sheqnil a

/-- The `update` closure registered by `useMapState` in the provider's
updaters map (part_003 lines 285-293): recompute the mapped value from the
current store state; when it is not shallow-equal to `prevRef.current`, store
it in both refs and trigger a re-render, otherwise leave the refs alone.
`sheq` is shallowEqual between two user values; `sheqnil` is shallowEqual of
the `nil` sentinel object against a user value (the `prev = none` case, which
cannot arise for a registered hook since registration and ref reset are tied
together in the effect). -/
def updateHook {α σ : Type} (sheq : α → α → Bool) (sheqnil : α → Bool)
    (st : α) (ms : Option (MapFn α σ)) (h : MapHook α σ) : UpdateOut α σ :=
  let g := getMappedValue st ms h.clos
  let next := g.1
  let hc : MapHook α σ := { h with clos := g.2.1 }
  let same := shallowEqualNilable sheq sheqnil h.prev next
  if same then ⟨hc, false, g.2.2⟩
  else ⟨{ hc with prev := some next, bailout := some next }, true, g.2.2⟩

/-- The subset of the native `Map` interface used for the provider's updaters
map, realized over an association list in insertion order: `set` replaces an
existing key in place, else appends. -/
def mapSet {β : Type} (m : List (Nat × β)) (k : Nat) (v : β) :
    List (Nat × β) :=
  if m.any (fun p => p.1 == k)
  then m.map (fun p => if p.1 == k then (k, v) else p)
  else m ++ [(k, v)]

/-- `Map.delete`: remove the entry with the given key. -/
def mapDelete {β : Type} (m : List (Nat × β)) (k : Nat) : List (Nat × β) :=
  m.filter (fun p => p.1 != k)

/-- `Map.get`-style lookup, for stating theorems about the updaters map. -/
def mapLookup {β : Type} (m : List (Nat × β)) (k : Nat) : Option β :=
  (m.find? (fun p => p.1 == k)).map Prod.snd

/-- Result of the `useMapState` subscription effect (part_003 lines 283-308):
the new value of the module-level `SEQ` counter, the new updaters map, and
the id under which this hook registered its updater. -/
structure EffectOut (β : Type) where
  seq : Nat
  upds : List (Nat × β)
  id : Nat
deriving Repr

/-- The `useMapState` subscription effect body: `const id = ++SEQ;
updaters.set(id, update)`.  `u` is the hook's update closure (abstract
here). -/
def hookEffect {β : Type} (seq : Nat) (upds : List (Nat × β)) (u : β) :
    EffectOut β :=
  ⟨seq + 1, mapSet upds (seq + 1) u, seq + 1⟩

/-- The effect cleanup (part_003 lines 300-307): delete this hook's entry
from the updaters map and reset both cached refs to the `nil` sentinel. -/
def hookCleanup {α σ β : Type} (id : Nat) (upds : List (Nat × β))
    (h : MapHook α σ) : List (Nat × β) × MapHook α σ :=
  (mapDelete upds id, { h with prev := none, bailout := none })

/-- One mounted hook component as seen by the provider: its ref state and the
mapState function of its latest render (the source's `mapStateRef.current`,
reassigned on every render and read by the update closure). -/
structure HookInst (α σ : Type) where
  refs : MapHook α σ
  ms : Option (MapFn α σ)

/-- The world the provider's `notify` loop acts on: the store's current state
and the mounted hook instances.  `storeState` can only change through a
dispatch; the update closures only read it. -/
structure Sys (α σ : Type) where
  storeState : α
  hooks : List (HookInst α σ)

/-- Run one registered updater (one entry of the provider's `forEach` loop).
The update closure begins with `store.getState()`; the second component
records the state it observed there.  The system is threaded through so that
"the state at that moment" is meaningful inside the fold. -/
def runUpdater {α σ : Type} (sheq : α → α → Bool) (sheqnil : α → Bool)
    (sys : Sys α σ) (idx : Nat) : Sys α σ × α :=
  let obs := sys.storeState
  match sys.hooks[idx]? with
  | none => (sys, obs)
  | some inst =>
    let o := updateHook sheq sheqnil sys.storeState inst.ms inst.refs
    ({ sys with hooks := sys.hooks.set idx { inst with refs := o.hook } }, obs)

/-- The provider's `notify` loop body
(`updaters.current.forEach(updater => updater())` inside
`ReactDOM.unstable_batchedUpdates`): run every registered updater in
insertion order, collecting the store state each one observed. -/
def runUpdaters {α σ : Type} (sheq : α → α → Bool) (sheqnil : α → Bool)
    (sys : Sys α σ) (upds : List (Nat × Nat)) : Sys α σ × List α :=
  match upds with
  | [] => (sys, [])
  | e :: rest =>
    let r1 := runUpdater sheq sheqnil sys e.2
    let r2 := runUpdaters sheq sheqnil r1.1 rest
    (r2.1, r1.2 :: r2.2)

/-- Result of the provider's subscription effect. -/
structure ProviderEffectOut (α σ : Type) where
  sys : Sys α σ
  notifyCount : Nat
  observed : List α
  subscribed : Bool

/-- The `HooksProvider` effect (part_003 lines 122-132): if the state changed
between render (`preEffectState`, captured by `useMemo` during render) and
the effect run, call `notify()` once; then subscribe `notify` to the store.
`pre ≠ storeState` models the source's `preEffectState !==
props.store.getState()` reference comparison. -/
def providerEffect {α σ : Type} [DecidableEq α] (sheq : α → α → Bool)
    (sheqnil : α → Bool) (pre : α) (upds : List (Nat × Nat))
    (sys : Sys α σ) : ProviderEffectOut α σ :=
  if pre = sys.storeState then ⟨sys, 0, [], true⟩
  else
    let r := runUpdaters sheq sheqnil sys upds
    ⟨r.1, 1, r.2, true⟩

/-- The part of the store the hooks require (`LooseStore`, part_003 lines
53-57). -/
structure LooseStore (α Act Ret : Type) where
  state : α
  dispatch : Act → Ret

/-- The only failure raised by the hooks themselves: `NoProviderError`
(part_003 lines 68-72). -/
inductive HookError : Type where
  | noProvider
deriving DecidableEq, Repr

/-- The `NoProviderError` message. -/
def noProviderMessage : String :=
  "<HooksProvider> wrapping missing for useRedux*()?"

/-- `useDispatch` (part_003 lines 148-156): throw `NoProviderError` when the
context holds no store, else return the store's own `dispatch`. -/
def useDispatch {α Act Ret : Type} (ctx : Option (LooseStore α Act Ret)) :
    Except HookError (Act → Ret) :=
  match ctx with
  | none => .error .noProvider
  | some s => .ok s.dispatch

/-- `useMapState` with the provider check (part_003 lines 261-263 guard the
render body): throw `NoProviderError` without a store, else render. -/
def useMapState {α σ Act Ret : Type} [DecidableEq α]
    (ctx : Option (LooseStore α Act Ret)) (ms : Option (MapFn α σ))
    (deps : Option (Deps α)) (h : MapHook α σ) :
    Except HookError (RenderOut α σ) :=
  match ctx with
  | none => .error .noProvider
  | some s => .ok (renderMapState s.state ms deps h)

/-- The ref captured by `useSelect`'s mapState closure (part_003 lines
164-170): the cached `produce` result and the previously stored selection,
both initialized to the `nil` sentinel. -/
structure SelRef (α : Type) where
  result : Option α
  prevSelection : Option α
deriving DecidableEq, Repr

/-- Result of one execution of `useSelect`'s mapState body. -/
structure SelectOut (α : Type) where
  result : α
  ref : SelRef α
  produced : Bool
deriving Repr

/-- The mapState body `useSelect` passes to `useMapState` (part_003 lines
172-192): select from the state; when the selection is not shallow-equal to
the stored one, store it; when unchanged and a cached result exists, return
the cache; otherwise run `produce` and cache its result.  `sheqnil` models
`shallowEqual(selection, nil-object)` for the initial sentinel value of
`prevSelection`. -/
def selectBody {α : Type} (sheq : α → α → Bool) (sheqnil : α → Bool)
    (select : α → α) (produce : α → α) (r : SelRef α) (state : α) :
    SelectOut α :=
  let selection := select state
  let same := shallowEqualNilableSnd sheq sheqnil selection r.prevSelection
  let r1 := if same then r else { r with prevSelection := some selection }
  if same then
    match r1.result with
    | some res => ⟨res, r1, false⟩
    | none =>
      let res := produce selection
      ⟨res, { r1 with result := some res }, true⟩
  else
    let res := produce selection
    ⟨res, { r1 with result := some res }, true⟩

/-- `useSelect`'s mapState body as a `MapFn` over the captured ref. -/
def selectMapFn {α : Type} (sheq : α → α → Bool) (sheqnil : α → Bool)
    (select : α → α) (produce : α → α) : MapFn α (SelRef α) :=
  fun st r =>
    let o := selectBody sheq sheqnil select produce r st
    (o.result, o.ref)

/-- `useSelect` (part_003 lines 158-196): delegate to `useMapState` with the
selection/produce closure; the `NoProviderError` check happens inside
`useMapState`. -/
def useSelect {α Act Ret : Type} [DecidableEq α] (sheq : α → α → Bool)
    (sheqnil : α → Bool) (ctx : Option (LooseStore α Act Ret))
    (select : α → α) (produce : α → α) (deps : Option (Deps α))
    (h : MapHook α (SelRef α)) : Except HookError (RenderOut α (SelRef α)) :=
  useMapState ctx (some (selectMapFn sheq sheqnil select produce)) deps h

/-- `usePassiveMapState` (part_003 lines 329-348): throw without a store;
with a deps array memoize `mapState(store.getState())` on the deps
(element-wise `useMemo` comparison), else map on every call.  Returns the
value and the new memo cell. -/
def usePassiveMapState {α Act Ret : Type} [DecidableEq α]
    (ctx : Option (LooseStore α Act Ret)) (mapState : α → α)
    (deps : Option (Deps α)) (memo : Option (Deps α × α)) :
    Except HookError (α × Option (Deps α × α)) :=
  match ctx with
  | none => .error .noProvider
  | some s =>
    match deps with
    | some d =>
      match memo with
      | some mv =>
        if mv.1.elems = d.elems then .ok (mv.2, some mv)
        else
          let v := mapState s.state
          .ok (v, some (d, v))
      | none =>
        let v := mapState s.state
        .ok (v, some (d, v))
    | none => .ok (mapState s.state, memo)

/-- A concrete JS record value with identity, for witnesses: `ref` is the
object reference, `val` its single field. -/
structure Obj where
  ref : Nat
  val : Int
deriving DecidableEq, Repr

/-- Modelled from the spec: the shallow-equal module ("./shallow-equal") is
not among the provided sources; the spec describes its role as "shallow
equality comparison" / "shallow-compare two plain records and re-render if
different".  Concrete instance on `Obj`: equal when the references are
identical (`Object.is`) or the fields are equal. -/
def shallowEqual (a b : Obj) : Bool := a.ref == b.ref || a.val == b.val

/-- shallowEqual of the `nil` sentinel (an empty record) against an `Obj`
record with one field: always false, since the field sets differ. -/
def shallowEqualNil (_ : Obj) : Bool := false

/-- Demo state object `A` (reference 0, field value 5). -/
def objA : Obj := ⟨0, 5⟩

/-- Demo state object `B`: a distinct reference with the same field value, as
produced by a reducer returning a fresh but structurally identical state.
`shallowEqual objA objB = true` while `objA ≠ objB`. -/
def objB : Obj := ⟨1, 5⟩

/-- Demo pure mapState function on `Int` states. -/
def doubleMap : MapFn Int Unit := pureMap (fun s => s * 2)


/-- A third demo state object, not shallow-equal to `objA` or `objB`
(distinct reference and distinct field value): the state the store holds
before the updates of the C7 counterexample trace. -/
def objZ : Obj := ⟨2, 9⟩

/-- The bailout ref is empty or holds exactly the value cached in `prevRef`.
This holds for a freshly mounted hook and is maintained by every render
(which always consumes the bailout) and by every update (which fills both
refs together). -/
def BailoutPrev {α σ : Type} (h : MapHook α σ) : Prop :=
  h.bailout = none ∨ h.bailout = h.prev

/-- Reachability invariant of a mapState-less hook at store state `st`: the
cached previous value, when set, is the current state itself or shallow-equal
to it (the update closure refreshes it on every non-shallow-equal change),
and the bailout ref is empty or equal to `prevRef`. -/
def StaleOk {α σ : Type} (sheq : α → α → Bool) (st : α)
    (h : MapHook α σ) : Prop :=
  (match h.prev with
   | none => True
   | some p => p = st ∨ sheq p st = true) ∧ BailoutPrev h

/-! ## Theorems -/

theorem runUpdater_storeState {α σ : Type} (sheq : α → α → Bool)
    (sheqnil : α → Bool) (sys : Sys α σ) (idx : Nat) :
    (runUpdater sheq sheqnil sys idx).1.storeState = sys.storeState := by
  unfold runUpdater
  cases sys.hooks[idx]? <;> rfl

theorem runUpdater_observed {α σ : Type} (sheq : α → α → Bool)
    (sheqnil : α → Bool) (sys : Sys α σ) (idx : Nat) :
    (runUpdater sheq sheqnil sys idx).2 = sys.storeState := by
  unfold runUpdater
  cases sys.hooks[idx]? <;> rfl

theorem runUpdaters_spec {α σ : Type} (sheq : α → α → Bool)
    (sheqnil : α → Bool) (sys : Sys α σ) (upds : List (Nat × Nat)) :
    (runUpdaters sheq sheqnil sys upds).2
      = List.replicate upds.length sys.storeState ∧
    (runUpdaters sheq sheqnil sys upds).1.storeState = sys.storeState := by
  induction upds generalizing sys with
  | nil => exact ⟨rfl, rfl⟩
  | cons e rest ih =>
    simp only [runUpdaters, List.length_cons, List.replicate_succ]
    have h1 := runUpdater_storeState sheq sheqnil sys e.2
    have h2 := runUpdater_observed sheq sheqnil sys e.2
    have ih' := ih (runUpdater sheq sheqnil sys e.2).1
    refine ⟨?_, ?_⟩
    · rw [h2, ih'.1, h1]
    · rw [ih'.2, h1]

/-- Claim C1: for every store update delivered through the HooksProvider, all
registered hook updaters are run inside the provider's one batched notify
pass, and every updater observes the same store-state snapshot (the list of
states observed equals `replicate n storeState`), so no two subscribed
components observe different snapshots during one update cycle; the updater
loop itself never changes the store state. -/
theorem notify_single_snapshot {α σ : Type} (sheq : α → α → Bool)
    (sheqnil : α → Bool) (sys : Sys α σ) (upds : List (Nat × Nat)) :
    (runUpdaters sheq sheqnil sys upds).2
      = List.replicate upds.length sys.storeState ∧
    (runUpdaters sheq sheqnil sys upds).1.storeState = sys.storeState :=
  runUpdaters_spec sheq sheqnil sys upds

/-- Claim C9: the HooksProvider's subscription effect compares the pre-effect
state snapshot with the current store state; exactly when they differ it
calls notify once — running every registered updater once — before
subscribing, and it subscribes in either case, so dispatches that happen
between the provider's render and its effect are not lost. -/
theorem providerEffect_notifies_iff_changed {α σ : Type} [DecidableEq α]
    (sheq : α → α → Bool) (sheqnil : α → Bool) (pre : α)
    (upds : List (Nat × Nat)) (sys : Sys α σ) :
    (providerEffect sheq sheqnil pre upds sys).notifyCount
      = (if pre = sys.storeState then 0 else 1) ∧
    (providerEffect sheq sheqnil pre upds sys).observed
      = (if pre = sys.storeState then [] else List.replicate upds.length sys.storeState) ∧
    (providerEffect sheq sheqnil pre upds sys).subscribed = true ∧
    (providerEffect sheq sheqnil pre upds sys).sys.storeState = sys.storeState := by
  by_cases h : pre = sys.storeState
  · simp [providerEffect, h]
  · have hr := runUpdaters_spec sheq sheqnil sys upds
    simp [providerEffect, if_neg h, hr.1, hr.2]

/-- Claim C6: useDispatch returns the store's own dispatch function itself,
without wrapping or altering it. -/
theorem useDispatch_returns_store_dispatch {α Act Ret : Type}
    (s : LooseStore α Act Ret) :
    useDispatch (some s) = Except.ok s.dispatch := rfl

/-- Claim C3: calling useDispatch, useMapState, useSelect, or
usePassiveMapState with no store in the context (no HooksProvider ancestor)
fails with NoProviderError, and for every call made with a store present none
of the four hooks fails. -/
theorem hooks_fail_iff_no_provider {α σ Act Ret : Type} [DecidableEq α]
    (sheq : α → α → Bool) (sheqnil : α → Bool)
    (ms : Option (MapFn α σ)) (deps : Option (Deps α)) (h : MapHook α σ)
    (select produce : α → α) (hs : MapHook α (SelRef α)) (f : α → α)
    (memo : Option (Deps α × α)) :
    useDispatch (none : Option (LooseStore α Act Ret))
      = Except.error HookError.noProvider ∧
    useMapState (none : Option (LooseStore α Act Ret)) ms deps h
      = Except.error HookError.noProvider ∧
    useSelect sheq sheqnil (none : Option (LooseStore α Act Ret))
      select produce deps hs = Except.error HookError.noProvider ∧
    usePassiveMapState (none : Option (LooseStore α Act Ret)) f deps memo
      = Except.error HookError.noProvider ∧
    (∀ s : LooseStore α Act Ret,
      (useDispatch (some s)).isOk = true ∧
      (useMapState (some s) ms deps h).isOk = true ∧
      (useSelect sheq sheqnil (some s) select produce deps hs).isOk = true ∧
      (usePassiveMapState (some s) f deps memo).isOk = true) := by
  refine ⟨rfl, rfl, rfl, rfl, fun s => ⟨rfl, rfl, rfl, ?_⟩⟩
  unfold usePassiveMapState
  cases deps with
  | none => rfl
  | some d =>
    cases memo with
    | none => rfl
    | some mv =>
      by_cases he : mv.1.elems = d.elems <;> simp [he, Except.isOk, Except.toBool]



/-- Claim C5: under the SEQ invariant (every key in the updaters map was
issued by the SEQ counter, hence is at most `seq`), the subscription effect
of a useMapState hook registers exactly one updater entry keyed by the fresh
id `seq + 1` (appending it, leaving every other entry untouched), and its
cleanup deletes exactly that entry — restoring the original map — and resets
both cached refs to the nil sentinel. -/
theorem effect_registers_cleanup_removes {α σ β : Type} (seq : Nat)
    (upds : List (Nat × β)) (u : β) (h : MapHook α σ)
    (hk : ∀ p ∈ upds, p.1 ≤ seq) :
    (hookEffect seq upds u).id = seq + 1 ∧
    (hookEffect seq upds u).seq = seq + 1 ∧
    mapLookup upds (hookEffect seq upds u).id = none ∧
    (hookEffect seq upds u).upds = upds ++ [(seq + 1, u)] ∧
    (hookCleanup (hookEffect seq upds u).id (hookEffect seq upds u).upds h).1
      = upds ∧
    (hookCleanup (hookEffect seq upds u).id (hookEffect seq upds u).upds h).2.prev
      = none ∧
    (hookCleanup (hookEffect seq upds u).id (hookEffect seq upds u).upds h).2.bailout
      = none := by
  have hne : ∀ p ∈ upds, ¬(p.1 == seq + 1) = true := by
    intro p hp
    have := hk p hp
    simp only [beq_iff_eq]
    omega
  have hfind : upds.find? (fun p => p.1 == seq + 1) = none :=
    List.find?_eq_none.mpr hne
  have happend : (hookEffect seq upds u).upds = upds ++ [(seq + 1, u)] := by
    simp only [hookEffect, mapSet]
    rw [if_neg]
    simp only [Bool.not_eq_true, List.any_eq_false]
    intro x hx
    simp only [Bool.not_eq_true] at hne
    exact hne x hx
  have hid : (hookEffect seq upds u).id = seq + 1 := rfl
  refine ⟨rfl, rfl, ?_, happend, ?_, ?_, ?_⟩
  · rw [hid]
    simp only [mapLookup, hfind, Option.map_none']
  · rw [hid]
    simp only [hookCleanup, happend, mapDelete, List.filter_append]
    have h1 : upds.filter (fun p => p.1 != seq + 1) = upds := by
      rw [List.filter_eq_self]
      intro p hp
      simp only [bne_iff_ne, ne_eq]
      have := hk p hp
      omega
    have h2 : [(seq + 1, u)].filter (fun p : Nat × β => p.1 != seq + 1) = [] := by
      simp
    rw [h1, h2, List.append_nil]
  · rfl
  · rfl

theorem effect_registers_cleanup_removes_witness :
    mapLookup [(3, 0)] (hookEffect 5 [(3, 0)] 0).id = none ∧
    (hookEffect 5 [(3, 0)] 0).upds = [(3, 0), (6, 0)] ∧
    (hookCleanup (hookEffect 5 [(3, 0)] 0).id (hookEffect 5 [(3, 0)] 0).upds
      (freshHook () : MapHook Int Unit)).1 = [(3, 0)] := by
  have h := effect_registers_cleanup_removes 5 [(3, 0)] 0
    (freshHook () : MapHook Int Unit) (by decide)
  exact ⟨h.2.2.1, h.2.2.2.1, h.2.2.2.2.1⟩

/-- Claim C2: when the store publishes a new state, a subscribed useMapState
hook's update closure recomputes its mapped value (one mapState call when a
mapState function is set) and triggers a re-render if and only if the new
mapped value is not shallow-equal to the previously mapped value; when the
values are shallow-equal it neither triggers a re-render nor changes the
cached `prevRef`/`bailoutRef`. -/
theorem update_triggers_iff_not_shallow_equal {α σ : Type}
    (sheq : α → α → Bool) (sheqnil : α → Bool) (st : α)
    (ms : Option (MapFn α σ)) (h : MapHook α σ) (p : α)
    (hp : h.prev = some p) :
    (updateHook sheq sheqnil st ms h).triggered
      = !(sheq p (getMappedValue st ms h.clos).1) ∧
    (sheq p (getMappedValue st ms h.clos).1 = true →
      (updateHook sheq sheqnil st ms h).hook.prev = h.prev ∧
      (updateHook sheq sheqnil st ms h).hook.bailout = h.bailout) ∧
    (sheq p (getMappedValue st ms h.clos).1 = false →
      (updateHook sheq sheqnil st ms h).hook.prev
        = some (getMappedValue st ms h.clos).1 ∧
      (updateHook sheq sheqnil st ms h).hook.bailout
        = some (getMappedValue st ms h.clos).1) ∧
    (ms.isSome = true → (updateHook sheq sheqnil st ms h).calls = 1) := by
  unfold updateHook
  rw [hp]
  simp only [shallowEqualNilable]
  cases hs : sheq p (getMappedValue st ms h.clos).1 with
  | false =>
    refine ⟨by simp [hs], by simp, by simp [hs], ?_⟩
    intro hms
    cases ms with
    | none => simp at hms
    | some f =>
      simp only [getMappedValue] at hs
      simp [getMappedValue, hs]
  | true =>
    refine ⟨by simp [hs], by simp [hs, hp], by simp, ?_⟩
    intro hms
    cases ms with
    | none => simp at hms
    | some f =>
      simp only [getMappedValue] at hs
      simp [getMappedValue, hs]

theorem update_triggers_iff_not_shallow_equal_witness :
    (updateHook shallowEqual shallowEqualNil objB none
      (⟨some objA, none, none, ()⟩ : MapHook Obj Unit)).triggered = false ∧
    (updateHook shallowEqual shallowEqualNil objB none
      (⟨some objA, none, none, ()⟩ : MapHook Obj Unit)).hook.prev = some objA := by
  have h := update_triggers_iff_not_shallow_equal shallowEqual shallowEqualNil
    objB none (⟨some objA, none, none, ()⟩ : MapHook Obj Unit) objA rfl
  refine ⟨?_, ?_⟩
  · rw [h.1]; decide
  · rw [(h.2.1 (by decide)).1]

/-- Claim C8: a mapState function may return any value, including one
modelling JS null or undefined, and the first-render initialization caches
and returns it correctly: the mapped value is cached as `some (f st)`, which
is never the nil sentinel (`none`), so the initialization branch will not
re-run and the bailout is consumed exactly as for any other value.  The
witness instantiates the mapped value with `none : Option Int`, the model of
JS null. -/
theorem first_render_caches_any_value {α σ : Type} [DecidableEq α] (st : α)
    (f : α → α) (deps : Option (Deps α)) (h : MapHook α σ)
    (hp : h.prev = none) :
    (renderMapState st (some (pureMap f)) deps h).result = f st ∧
    (renderMapState st (some (pureMap f)) deps h).hook.prev = some (f st) ∧
    (renderMapState st (some (pureMap f)) deps h).hook.prev ≠ none ∧
    (renderMapState st (some (pureMap f)) deps h).hook.bailout = none ∧
    (renderMapState st (some (pureMap f)) deps h).calls = 1 := by
  obtain ⟨prev, bail, memo, clos⟩ := h
  simp only at hp
  subst hp
  simp [renderMapState, getMappedValue, pureMap]

theorem first_render_caches_any_value_witness :
    (renderMapState (some 3) (some (pureMap (fun _ => (none : Option Int))))
      none (freshHook () : MapHook (Option Int) Unit)).result = none ∧
    (renderMapState (some 3) (some (pureMap (fun _ => (none : Option Int))))
      none (freshHook () : MapHook (Option Int) Unit)).hook.prev
      = some none := by
  have h := first_render_caches_any_value (some 3)
    (fun _ => (none : Option Int)) none
    (freshHook () : MapHook (Option Int) Unit) rfl
  exact ⟨h.1, h.2.1⟩

theorem staleOk_fresh {α σ : Type} (sheq : α → α → Bool) (st : α) (c : σ) :
    StaleOk sheq st (freshHook c) :=
  ⟨trivial, Or.inl rfl⟩

theorem staleOk_update {α σ : Type} (sheq : α → α → Bool)
    (sheqnil : α → Bool) (st : α) (h : MapHook α σ) (hb : BailoutPrev h) :
    StaleOk sheq st
      (updateHook sheq sheqnil st (none : Option (MapFn α σ)) h).hook := by
  obtain ⟨prev, bail, memo, clos⟩ := h
  simp only [BailoutPrev] at hb
  cases prev with
  | none =>
    cases hn : sheqnil st <;>
      simp [updateHook, getMappedValue, shallowEqualNilable, hn, StaleOk,
        BailoutPrev, hb] ; tauto
  | some p =>
    cases hq : sheq p st <;>
      simp [updateHook, getMappedValue, shallowEqualNilable, hq, StaleOk,
        BailoutPrev, hb]

/-- Claim C7 (amended): for every call of useMapState without a mapState
function (with or without a deps array), in every ref state reachable by
mounting, store updates, and re-renders — captured by the invariant
`StaleOk`, which holds for a fresh hook (`staleOk_fresh`), is restored by
every update at the new store state (`staleOk_update`), and is preserved by
this very theorem for renders — the hook returns either the store's entire
current state unchanged, or the previously cached mapped state, which is
shallow-equal to the current state.  The unamended claim (always exactly
`store.getState()`) is false: see the counterexample below, where a
store-update bailout survives a second, shallow-equal store update and the
flushed render returns the stale cached object. -/
theorem no_mapstate_returns_current_or_shallow_equal {α σ : Type}
    [DecidableEq α] (sheq : α → α → Bool) (st : α) (deps : Option (Deps α))
    (h : MapHook α σ) (hs : StaleOk sheq st h) :
    ((renderMapState st (none : Option (MapFn α σ)) deps h).result = st ∨
      sheq (renderMapState st (none : Option (MapFn α σ)) deps h).result st
        = true) ∧
    StaleOk sheq st
      (renderMapState st (none : Option (MapFn α σ)) deps h).hook := by
  obtain ⟨prev, bail, memo, clos⟩ := h
  obtain ⟨hsp, hsb⟩ := hs
  simp only [BailoutPrev] at hsb
  cases prev with
  | none =>
    simp [renderMapState, getMappedValue, StaleOk, BailoutPrev]
  | some p =>
    simp only at hsp
    cases bail with
    | some v =>
      rcases hsb with hb | hb
      · exact absurd hb (by simp)
      · have hv : v = p := by injection hb
        subst hv
        simp only [renderMapState, getMappedValue, StaleOk, BailoutPrev]
        simp
        exact hsp
    | none =>
      by_cases hc : (deps.isSome && !(useDidDepsChange memo deps).1) = true
      · simp only [renderMapState, getMappedValue, StaleOk, BailoutPrev]
        simp [hc]
        exact hsp
      · simp only [renderMapState, getMappedValue, StaleOk, BailoutPrev]
        simp [hc]

theorem no_mapstate_returns_current_or_shallow_equal_witness :
    ((renderMapState objB (none : Option (MapFn Obj Unit)) none
        (updateHook shallowEqual shallowEqualNil objB none
          (updateHook shallowEqual shallowEqualNil objA none
            (renderMapState objZ (none : Option (MapFn Obj Unit)) none
              (freshHook ())).hook).hook).hook).result = objB ∨
      shallowEqual
        (renderMapState objB (none : Option (MapFn Obj Unit)) none
          (updateHook shallowEqual shallowEqualNil objB none
            (updateHook shallowEqual shallowEqualNil objA none
              (renderMapState objZ (none : Option (MapFn Obj Unit)) none
                (freshHook ())).hook).hook).hook).result objB = true) ∧
    StaleOk shallowEqual objB
      (renderMapState objB (none : Option (MapFn Obj Unit)) none
        (updateHook shallowEqual shallowEqualNil objB none
          (updateHook shallowEqual shallowEqualNil objA none
            (renderMapState objZ (none : Option (MapFn Obj Unit)) none
              (freshHook ())).hook).hook).hook).hook :=
  no_mapstate_returns_current_or_shallow_equal shallowEqual objB none
    (updateHook shallowEqual shallowEqualNil objB none
      (updateHook shallowEqual shallowEqualNil objA none
        (renderMapState objZ (none : Option (MapFn Obj Unit)) none
          (freshHook ())).hook).hook).hook
    ⟨Or.inr (by decide), Or.inr (by decide)⟩

/-- Claim C7 counterexample: a `useMapState(undefined)` hook (no mapState,
no deps) mounted at state `objZ`; the store moves to `objA` (not
shallow-equal), so the update closure fills `bailoutRef` with `objA` and
queues a re-render; before the batch flushes, a second dispatch moves the
store to `objB`, a fresh object shallow-equal to `objA`, so the second
update leaves the refs alone; the flushed render then consumes the stale
bailout and returns `objA`, not `store.getState() = objB`, refuting the
claim that every mapState-less call returns the current state unchanged. -/
theorem no_mapstate_stale_bailout_counterexample :
    (updateHook shallowEqual shallowEqualNil objA none
      (renderMapState objZ (none : Option (MapFn Obj Unit)) none
        (freshHook ())).hook).triggered = true ∧
    (updateHook shallowEqual shallowEqualNil objB none
      (updateHook shallowEqual shallowEqualNil objA none
        (renderMapState objZ (none : Option (MapFn Obj Unit)) none
          (freshHook ())).hook).hook).triggered = false ∧
    (renderMapState objB (none : Option (MapFn Obj Unit)) none
      (updateHook shallowEqual shallowEqualNil objB none
        (updateHook shallowEqual shallowEqualNil objA none
          (renderMapState objZ (none : Option (MapFn Obj Unit)) none
            (freshHook ())).hook).hook).hook).result = objA ∧
    objA ≠ objB ∧ shallowEqual objA objB = true := by decide

/-- The deps-array variant of the same staleness, kept as a supporting
demonstration: a hook mounted as `useMapState(undefined, deps)` at state
`objA`; the store moves to `objB`, shallow-equal to `objA`, so no re-render
is triggered; a later parent re-render with element-wise unchanged deps
takes the deps bailout and returns the stale cached `objA`. -/
theorem no_mapstate_deps_stale_demo :
    (updateHook shallowEqual shallowEqualNil objB none
      (renderMapState objA (none : Option (MapFn Obj Unit)) (some ⟨1, []⟩)
        (freshHook ())).hook).triggered = false ∧
    (renderMapState objB none (some ⟨2, []⟩)
      (updateHook shallowEqual shallowEqualNil objB none
        (renderMapState objA (none : Option (MapFn Obj Unit)) (some ⟨1, []⟩)
          (freshHook ())).hook).hook).result = objA ∧
    objA ≠ objB ∧ shallowEqual objA objB = true := by decide

/-- Claim C4 (amended): for a re-render of useMapState with a deps array
that is a fresh array object (id different from the memoized one), with no
store-triggered bailout pending: if the deps are element-wise unchanged the
hook returns the previously mapped value without executing mapState and the
cache is untouched; if any dependency changed, mapState executes on that
render and its result becomes the new cached value.  The unamended claim is
false when the identical deps array object is passed again: see the
counterexample below. -/
theorem deps_fresh_array_memoization {α σ : Type} [DecidableEq α] (st : α)
    (f : MapFn α σ) (d m : Deps α) (h : MapHook α σ) (p : α)
    (hp : h.prev = some p) (hb : h.bailout = none) (hm : h.memo = some m)
    (hfresh : m.id ≠ d.id) :
    (m.elems = d.elems →
      (renderMapState st (some f) (some d) h).result = p ∧
      (renderMapState st (some f) (some d) h).calls = 0 ∧
      (renderMapState st (some f) (some d) h).hook.prev = some p) ∧
    (m.elems ≠ d.elems →
      (renderMapState st (some f) (some d) h).calls = 1 ∧
      (renderMapState st (some f) (some d) h).result = (f st h.clos).1 ∧
      (renderMapState st (some f) (some d) h).hook.prev
        = some (f st h.clos).1) := by
  obtain ⟨prev, bail, memo, clos⟩ := h
  simp only at hp hb hm
  subst hp; subst hb; subst hm
  constructor
  · intro he
    have hid : (m.id == d.id) = false := by
      simp only [beq_eq_false_iff_ne, ne_eq]
      exact hfresh
    simp [renderMapState, useDidDepsChange, he, hid]
  · intro he
    simp [renderMapState, useDidDepsChange, getMappedValue, if_neg he]

theorem deps_fresh_array_memoization_witness :
    (renderMapState 10 (some doubleMap) (some ⟨2, [7]⟩)
      (⟨some 20, none, some ⟨1, [7]⟩, ()⟩ : MapHook Int Unit)).result = 20 ∧
    (renderMapState 10 (some doubleMap) (some ⟨2, [7]⟩)
      (⟨some 20, none, some ⟨1, [7]⟩, ()⟩ : MapHook Int Unit)).calls = 0 := by
  have h := deps_fresh_array_memoization 10 doubleMap ⟨2, [7]⟩ ⟨1, [7]⟩
    (⟨some 20, none, some ⟨1, [7]⟩, ()⟩ : MapHook Int Unit) 20
    rfl rfl rfl (by decide)
  exact ⟨(h.1 rfl).1, (h.1 rfl).2.1⟩

/-- Claim C4 counterexample: passing the very same deps array object (same
id, same elements) on a second render is element-wise unchanged under
useMemo semantics, yet `useDidDepsChange` reports a change (useMemo returns
the cached array, which IS the current array), so mapState is executed once
on the second render instead of returning the cached value without
executing it. -/
theorem deps_same_array_object_counterexample :
    (renderMapState 10 (some doubleMap) (some ⟨1, [7]⟩)
      (freshHook () : MapHook Int Unit)).hook.memo = some ⟨1, [7]⟩ ∧
    (renderMapState 10 (some doubleMap) (some ⟨1, [7]⟩)
      (renderMapState 10 (some doubleMap) (some ⟨1, [7]⟩)
        (freshHook () : MapHook Int Unit)).hook).calls = 1 := by decide

/-- Claim C10: in useSelect's mapState body, produce is invoked if and only
if the selection is not shallow-equal to the previously stored selection
(with the nil sentinel in `prevSelection` compared by shallowEqual like any
other value) or no cached result exists yet; when the selection is
shallow-equal and a cached result exists, the cached produce result is
returned unchanged and the ref is untouched; whenever produce runs, its
result is returned and cached; `prevSelection` is updated exactly when the
selection changed. -/
theorem produce_iff_selection_changed {α : Type} (sheq : α → α → Bool)
    (sheqnil : α → Bool) (select produce : α → α) (r : SelRef α)
    (state : α) :
    (selectBody sheq sheqnil select produce r state).produced
      = (!(shallowEqualNilableSnd sheq sheqnil (select state) r.prevSelection)
          || r.result.isNone) ∧
    (shallowEqualNilableSnd sheq sheqnil (select state) r.prevSelection = true →
      ∀ c, r.result = some c →
        (selectBody sheq sheqnil select produce r state).result = c ∧
        (selectBody sheq sheqnil select produce r state).ref = r) ∧
    ((selectBody sheq sheqnil select produce r state).produced = true →
      (selectBody sheq sheqnil select produce r state).result
        = produce (select state) ∧
      (selectBody sheq sheqnil select produce r state).ref.result
        = some (produce (select state))) ∧
    (selectBody sheq sheqnil select produce r state).ref.prevSelection
      = (if shallowEqualNilableSnd sheq sheqnil (select state) r.prevSelection
         then r.prevSelection else some (select state)) := by
  obtain ⟨res, prevSel⟩ := r
  cases hsame : shallowEqualNilableSnd sheq sheqnil (select state) prevSel <;>
    cases res <;> simp [selectBody, hsame]

theorem produce_iff_selection_changed_witness :
    (selectBody shallowEqual shallowEqualNil id id
      (⟨some objA, some objA⟩ : SelRef Obj) objA).produced = false ∧
    (selectBody shallowEqual shallowEqualNil id id
      (⟨some objA, some objA⟩ : SelRef Obj) objA).result = objA := by
  have h := produce_iff_selection_changed shallowEqual shallowEqualNil id id
    (⟨some objA, some objA⟩ : SelRef Obj) objA
  refine ⟨?_, ?_⟩
  · rw [h.1]; decide
  · exact (h.2.1 (by decide) objA rfl).1

end ReduxHooks
